import Mathlib

/-!
Shallow embedding of the cfe-pyroscope api core: time-coordinate
resolution (app/utils/time_utils.py, app/routes/by_date.py), spatial
subsetting (app/utils/bounds_utils.py, app/services/bounds_utils.py),
aggregation (app/utils/stats.py, app/routes/exceedance_frequency.py),
store ingestion (app/utils/zarr_loader.py) and the tooltip point query
(app/routes/tooltip.py).

Conventions of the embedding:
* Naive timestamps at second precision are seconds since the epoch
  (Nat).  Sub-second inputs carry a separate microsecond field that
  canonicalization truncates.
* Grid coordinates and data values are rationals; an IEEE float that
  may be NaN is a PyFloat (nan or a finite rational).  A missing cell
  is a NaN cell, as in the NumPy-backed arrays of the source.
* Bounding boxes are taken after the EPSG:3857 to EPSG:4326
  reprojection, in the geographic terms the claims are stated in; the
  transcendental reprojection itself is outside the embedding.
-/

namespace Pyro

/-- Seconds per calendar day. -/
def secsPerDay : Nat := 86400

/-- Seconds per hour. -/
def secsPerHour : Nat := 3600

/-- Calendar-day ordinal of a naive timestamp (pandas .date()). -/
def dateOf (t : Nat) : Nat := t / secsPerDay

/-- Hour of day of a naive timestamp (pandas .hour). -/
def hourOf (t : Nat) : Nat := t % secsPerDay / secsPerHour

/-- Midnight of the day of t (pandas .floor of a day). -/
def floorDay (t : Nat) : Nat := t / secsPerDay * secsPerDay

/-- pandas Timestamp.replace with a new hour: date, minute and second
    are kept, only the hour-of-day is replaced. -/
def replaceHour (t h : Nat) : Nat := floorDay t + h * secsPerHour + t % secsPerHour

/-- Result of pandas parsing an ISO-8601 datetime string: local
    wall-clock seconds since the epoch, a sub-second microsecond part,
    and an optional UTC offset in seconds (none for a zone-naive
    string such as one without a trailing Z). -/
structure ParsedDT where
  sec : Int
  usec : Nat
  offset : Option Int
deriving DecidableEq

/-- The instant a parsed datetime denotes, in microseconds since the
    epoch; a zone-naive value is interpreted as UTC wall-clock. -/
def ParsedDT.instantUSec (p : ParsedDT) : Int :=
  (p.sec - p.offset.getD 0) * 1000000 + p.usec

/-- A timezone-naive timestamp at second precision (the canonical
    internal representation used for all comparisons). -/
structure NaiveTS where
  sec : Int
deriving DecidableEq

/-- app/utils/time_utils._parse_naive: convert a zone-aware value to
    UTC, drop the zone, truncate microseconds; a naive value keeps its
    wall clock. -/
def parseNaive (p : ParsedDT) : NaiveTS :=
  ⟨p.sec - p.offset.getD 0⟩

/-- app/utils/time_utils._parse_iso_naive: drop the zone designator
    without converting to UTC (the naive result keeps the local wall
    clock), truncate microseconds. -/
def parseIsoNaive (p : ParsedDT) : NaiveTS :=
  ⟨p.sec⟩

/-- Outcome of base-time matching in app/routes/by_date.py. -/
inductive BaseMatch where
  | found (matchedBase : Nat)
  | notFound (tried : Nat) (hints : List Nat)
deriving DecidableEq

/-- app/routes/by_date.py: the alternate half-day hour tried when the
    exact base_time is absent (12 if the request is at hour 0, else 0). -/
def altHour (req : Nat) : Nat := if hourOf req = 0 then 12 else 0

/-- app/routes/by_date.py get_forecast_time, base-time matching: exact
    second-precision match, then the 00Z/12Z alternate on the same
    calendar date, then a 404 whose hints are the first 3 run labels on
    the requested date. -/
def matchBaseByDate (baseVals : List Nat) (req : Nat) : BaseMatch :=
  if req ∈ baseVals then .found req
  else
    let alt := replaceHour req (altHour req)
    if alt ∈ baseVals then .found alt
    else .notFound alt ((baseVals.filter fun b => decide (dateOf b = dateOf req)).take 3)

/-- Outcome of app/utils/time_utils._match_base_time. -/
inductive HelperMatch where
  | ok (base : Nat)
  | errNot00Z
  | errNotFound (hints : List Nat)
deriving DecidableEq

/-- app/utils/time_utils._match_base_time: rejects any request whose
    hour is not 0 before matching, then matches exactly; on failure the
    error lists up to 5 same-date labels.  There is no 00Z/12Z
    fallback. -/
def matchBaseTimeHelper (baseVals : List Nat) (req : Nat) : HelperMatch :=
  if hourOf req ≠ 0 then .errNot00Z
  else if req ∈ baseVals then .ok req
  else .errNotFound ((baseVals.filter fun b => decide (dateOf b = dateOf req)).take 5)

/-- app/utils/time_utils._match_forecast_time on the forecast_time row
    of the matched run: an exact second-precision match returns the
    request unchanged, otherwise a ValueError listing the first 5
    available labels. -/
def matchForecastTime (fcstVals : List Nat) (req : Nat) : Except (List Nat) Nat :=
  if req ∈ fcstVals then .ok req else .error (fcstVals.take 5)

/-- Order-preserving first-occurrence dedup relative to an initial seen
    set (the seen-set loop of both output branches of
    app/routes/by_date.py). -/
def dedupFirstFrom (seen : List Nat) : List Nat → List Nat
  | [] => []
  | v :: rest =>
      if v ∈ seen then dedupFirstFrom seen rest
      else v :: dedupFirstFrom (v :: seen) rest

/-- Order-preserving dedup keeping first occurrences. -/
def dedupFirst (l : List Nat) : List Nat := dedupFirstFrom [] l

/-- app/routes/by_date.py POF branch loop: collapse the forecast_time
    row to unique floored days, first occurrence in original order,
    breaking as soon as 10 days are collected.  The accumulated daily
    list doubles as the seen set, exactly as in the source where seen
    always equals set(daily). -/
def pofDailyGo : List Nat → List Nat → List Nat
  | daily, [] => daily
  | daily, v :: rest =>
      let d := floorDay v
      let daily2 := if d ∈ daily then daily else daily ++ [d]
      if 10 ≤ daily2.length then daily2 else pofDailyGo daily2 rest

/-- app/routes/by_date.py POF branch output. -/
def pofDaily (ftVals : List Nat) : List Nat := pofDailyGo [] ftVals

/-- app/routes/by_date.py non-POF (FOPI) branch output: the row in
    forecast_index order, deduplicated, never re-sorted. -/
def fopiSteps (ftVals : List Nat) : List Nat := dedupFirst ftVals

/-- An IEEE double as the NumPy arrays hold it: NaN (which is also how
    a missing cell is stored) or a finite rational.  Infinities do not
    occur for the probability-valued data in [0,1]. -/
inductive PyFloat where
  | nan
  | fin (q : ℚ)
deriving DecidableEq

/-- The valid (non-NaN) values of a slice, in order (the cells kept by
    the NaN masks of stats.py and exceedance_frequency.py). -/
def validVals (l : List PyFloat) : List ℚ :=
  l.filterMap fun v => match v with | .nan => none | .fin q => some q

/-- np.nanmean: NaN when no valid values remain, else their mean. -/
def nanmean (l : List PyFloat) : PyFloat :=
  let v := validVals l
  if v.length = 0 then .nan else .fin (v.sum / v.length)

/-- np.nanmedian: NaN when no valid values remain, else the middle of
    the sorted valid values (mean of the two middles for even length). -/
def nanmedian (l : List PyFloat) : PyFloat :=
  let v := (validVals l).mergeSort fun a b => decide (a ≤ b)
  if v.length = 0 then .nan
  else if v.length % 2 = 1 then .fin (v.getD (v.length / 2) 0)
  else .fin ((v.getD (v.length / 2 - 1) 0 + v.getD (v.length / 2) 0) / 2)

/-- app/utils/stats._to_opt_float: the NaN-to-None boundary conversion
    (finite floats pass through). -/
def toOptFloat : PyFloat → Option ℚ
  | .nan => none
  | .fin q => some q

/-- Input shape of app/utils/stats._agg_mean_median: a scalar (no
    lat/lon dims) or a spatial slice flattened over lat and lon. -/
inductive Slice where
  | scalar (v : PyFloat)
  | spatial (cells : List PyFloat)

/-- app/utils/stats._agg_mean_median. -/
def aggMeanMedian : Slice → Option ℚ × Option ℚ
  | .scalar v => (toOptFloat v, toOptFloat v)
  | .spatial cells => (toOptFloat (nanmean cells), toOptFloat (nanmedian cells))

/-- One selected run in app/routes/exceedance_frequency.py: its
    base_time (naive seconds) and its flattened spatial cells after the
    optional bbox subset. -/
structure Run where
  baseTime : Nat
  cells : List PyFloat

/-- Number of valid (non-NaN) cells of a run (valid_mask.sum). -/
def runValid (r : Run) : Nat := (validVals r.cells).length

/-- Number of valid cells of a run with value at least t
    (np.count_nonzero((arr >= t) and valid_mask)); a NaN cell never
    compares at least t, matching NumPy. -/
def runExceed (r : Run) (t : ℚ) : Nat :=
  ((validVals r.cells).filter fun v => decide (t ≤ v)).length

/-- Pooled valid-cell count across all selected runs. -/
def overallTotal (runs : List Run) : Nat := (runs.map runValid).sum

/-- Pooled count of valid cells at least t across all selected runs. -/
def overallCount (runs : List Run) (t : ℚ) : Nat := (runs.map (runExceed · t)).sum

/-- app/routes/exceedance_frequency.py overall fraction: cnt/total when
    the pooled valid count is positive, else the float nan sentinel. -/
def overallFraction (runs : List Run) (t : ℚ) : PyFloat :=
  if 0 < overallTotal runs then
    .fin ((overallCount runs t : ℚ) / (overallTotal runs : ℚ))
  else .nan

/-- The runs sharing UTC calendar date d (the groupby level of
    exceedance_frequency.py). -/
def dateRuns (runs : List Run) (d : Nat) : List Run :=
  runs.filter fun r => decide (dateOf r.baseTime = d)

/-- Summed valid-cell count of one date group. -/
def dateTotal (runs : List Run) (d : Nat) : Nat := overallTotal (dateRuns runs d)

/-- Summed exceedance count of one date group. -/
def dateCount (runs : List Run) (d : Nat) (t : ℚ) : Nat := overallCount (dateRuns runs d) t

/-- app/routes/exceedance_frequency.py per-date fraction: cnt/tot when
    the group's valid count is positive, else the float nan sentinel. -/
def dateFraction (runs : List Run) (d : Nat) (t : ℚ) : PyFloat :=
  if 0 < dateTotal runs d then
    .fin ((dateCount runs d t : ℚ) / (dateTotal runs d : ℚ))
  else .nan

/-- Geographic bounding box after the EPSG:3857 to EPSG:4326
    reprojection, in the source's field order x=lon, y=lat. -/
structure GeoBBox where
  lonMin : ℚ
  latMin : ℚ
  lonMax : ℚ
  latMax : ℚ
deriving DecidableEq

/-- app/utils/bounds_utils._extract_spatial_subset: latitude bounds are
    reordered when inverted by the reprojection. -/
def latBoundsOrdered (bb : GeoBBox) : ℚ × ℚ :=
  if bb.latMax < bb.latMin then (bb.latMax, bb.latMin) else (bb.latMin, bb.latMax)

/-- app/utils/bounds_utils._extract_spatial_subset latitude mask. -/
def latMaskU (bb : GeoBBox) (lat : ℚ) : Bool :=
  decide ((latBoundsOrdered bb).1 ≤ lat) && decide (lat ≤ (latBoundsOrdered bb).2)

/-- app/utils/bounds_utils._extract_spatial_subset longitude mask:
    when the box crosses the antimeridian (lon_min greater than
    lon_max) the mask is the OR of the two comparisons, else the AND. -/
def lonMaskU (bb : GeoBBox) (lon : ℚ) : Bool :=
  if bb.lonMax < bb.lonMin then decide (bb.lonMin ≤ lon) || decide (lon ≤ bb.lonMax)
  else decide (bb.lonMin ≤ lon) && decide (lon ≤ bb.lonMax)

/-- Latitude axis points surviving the where(mask, drop=True) crop. -/
def subsetLatsU (lats : List ℚ) (bb : GeoBBox) : List ℚ := lats.filter (latMaskU bb)

/-- Longitude axis points surviving the where(mask, drop=True) crop. -/
def subsetLonsU (lons : List ℚ) (bb : GeoBBox) : List ℚ := lons.filter (lonMaskU bb)

/-- Grid points selected by app/utils/bounds_utils._extract_spatial_subset:
    the separable lat and lon masks keep exactly the product of the two
    surviving axes. -/
def subsetPointsU (lats lons : List ℚ) (bb : GeoBBox) : List (ℚ × ℚ) :=
  (subsetLatsU lats bb).flatMap fun la => (subsetLonsU lons bb).map fun lo => (la, lo)

/-- app/services/bounds_utils.normalize_bbox with wrap=False: reorder
    both coordinate pairs so that min is not above max. -/
def normalizeBbox (bb : GeoBBox) : GeoBBox :=
  let (lonLo, lonHi) :=
    if bb.lonMax < bb.lonMin then (bb.lonMax, bb.lonMin) else (bb.lonMin, bb.lonMax)
  let (latLo, latHi) :=
    if bb.latMax < bb.latMin then (bb.latMax, bb.latMin) else (bb.latMin, bb.latMax)
  ⟨lonLo, latLo, lonHi, latHi⟩

/-- app/services/bounds_utils.extract_spatial_subset longitude mask: a
    plain AND over the normalized (reordered) bounds — no antimeridian
    OR branch exists in this variant. -/
def lonMaskSvc (bb : GeoBBox) (lon : ℚ) : Bool :=
  decide ((normalizeBbox bb).lonMin ≤ lon) && decide (lon ≤ (normalizeBbox bb).lonMax)

/-- Longitude axis points kept by the services-variant subsetter. -/
def subsetLonsSvc (lons : List ℚ) (bb : GeoBBox) : List ℚ := lons.filter (lonMaskSvc bb)

/-- Observable state of the per-dataset Zarr store directory for
    app/utils/zarr_loader.convert_nc_to_zarr: which store paths exist,
    how many store writes and how many raw NetCDF reads happened. -/
structure StoreState where
  stores : List String
  writes : Nat
  rawReads : Nat
deriving DecidableEq

/-- The store path convert_nc_to_zarr derives for a run: ZARR_PATH /
    index / index_timestamp.zarr, deterministic in (index, timestamp). -/
def zarrStorePath (index timestamp : String) : String :=
  index ++ "/" ++ index ++ "_" ++ timestamp ++ ".zarr"

/-- app/utils/zarr_loader.convert_nc_to_zarr body under the per-store
    file lock: when the store is absent or force is set, open the raw
    file and (re)write the store (removing it first under force);
    otherwise do nothing.  Returns the store path. -/
def convertNcToZarr (st : StoreState) (path : String) (force : Bool) : StoreState × String :=
  if !(st.stores.contains path) || force then
    ({ stores := if st.stores.contains path then st.stores else path :: st.stores,
       writes := st.writes + 1,
       rawReads := st.rawReads + 1 }, path)
  else (st, path)

/-- The dataset as app/routes/tooltip.py consumes it: run labels, the
    forecast_time row per run index (already normalized to naive UTC
    seconds), the two coordinate axes and the cell values indexed by
    (run, forecast_index, lat index, lon index). -/
structure TooltipDS where
  baseTimes : List Nat
  fcstRows : Nat → List Nat
  lats : List ℚ
  lons : List ℚ
  cell : Nat → Nat → Nat → Nat → PyFloat

/-- Outcome of the tooltip query: the JSON value (null for NaN) with
    the nearest grid point, or the KeyError raised when the base_time
    or the forecast_time has no exact match; the forecast_time error
    carries the request and the min, max and count of the available
    row, which the message interpolates. -/
inductive TooltipOut where
  | ok (value : Option ℚ) (gridLat gridLon : ℚ)
  | errBase (req : Nat)
  | errFcst (req lo hi count : Nat)
deriving DecidableEq

/-- Minimum of a NumPy array (nonempty in the source). -/
def listMin : List Nat → Nat
  | [] => 0
  | h :: t => t.foldl min h

/-- Maximum of a NumPy array (nonempty in the source). -/
def listMax : List Nat → Nat
  | [] => 0
  | h :: t => t.foldl max h

/-- Index of the axis point nearest to x (xarray sel with
    method=nearest, applied per axis). -/
def nearestIdx (axis : List ℚ) (x : ℚ) : Nat :=
  ((List.range axis.length).argmin fun i => |axis.getD i 0 - x|).getD 0

/-- app/routes/tooltip.py get_tooltip_data after coordinate transform
    and time normalization: exact selection of the run, exact match of
    the forecast_time row (np.where, first index), nearest-neighbour
    selection on both spatial axes, and NaN-to-null conversion of the
    picked value. -/
def getTooltip (ds : TooltipDS) (reqBase reqFcst : Nat) (lat lon : ℚ) : TooltipOut :=
  if reqBase ∈ ds.baseTimes then
    let bIdx := ds.baseTimes.indexOf reqBase
    let row := ds.fcstRows bIdx
    if reqFcst ∈ row then
      let fIdx := row.indexOf reqFcst
      let latI := nearestIdx ds.lats lat
      let lonI := nearestIdx ds.lons lon
      .ok (toOptFloat (ds.cell bIdx fIdx latI lonI))
        (ds.lats.getD latI 0) (ds.lons.getD lonI 0)
    else .errFcst reqFcst (listMin row) (listMax row) row.length
  else .errBase reqBase

/-! ### Helper lemmas -/

theorem dateOf_replaceHour (t h : Nat) (hh : h ≤ 23) : dateOf (replaceHour t h) = dateOf t := by
  unfold dateOf replaceHour floorDay secsPerDay secsPerHour
  omega

theorem hourOf_replaceHour (t h : Nat) (hh : h ≤ 23) : hourOf (replaceHour t h) = h := by
  unfold hourOf replaceHour floorDay secsPerDay secsPerHour
  omega

theorem filter_singleton_of_unique {α : Type} (p : α → Bool) (l : List α) (a : α)
    (hnd : l.Nodup) (ha : a ∈ l) (hp : p a = true)
    (hq : ∀ x ∈ l, x ≠ a → p x = false) : l.filter p = [a] := by
  induction l with
  | nil => cases ha
  | cons b t ih =>
    have hnb : b ∉ t := (List.nodup_cons.mp hnd).1
    rcases List.mem_cons.mp ha with hab | hat
    · have hpb : p b = true := by rw [← hab]; exact hp
      have hnil : t.filter p = [] := by
        rw [List.filter_eq_nil_iff]
        intro x hx
        have hxa : x ≠ a := by
          intro e
          exact hnb (by rw [← e.trans hab]; exact hx)
        simp [hq x (List.mem_cons_of_mem b hx) hxa]
      simp [List.filter_cons, hpb, hnil, hab]
    · have hba : b ≠ a := by
        intro e
        exact hnb (by rw [e]; exact hat)
      have hb : p b = false := hq b (List.mem_cons_self b t) hba
      have ht : t.filter p = [a] :=
        ih (List.nodup_cons.mp hnd).2 hat fun x hx hxa => hq x (List.mem_cons_of_mem b hx) hxa
      simp [List.filter_cons, hb, ht]

theorem latMaskU_eq (bb : GeoBBox) (x : ℚ) (hns : ¬ bb.latMax < bb.latMin) :
    latMaskU bb x = (decide (bb.latMin ≤ x) && decide (x ≤ bb.latMax)) := by
  simp [latMaskU, latBoundsOrdered, hns]

theorem lonMaskU_eq_nocross (bb : GeoBBox) (x : ℚ) (hns : ¬ bb.lonMax < bb.lonMin) :
    lonMaskU bb x = (decide (bb.lonMin ≤ x) && decide (x ≤ bb.lonMax)) := by
  simp [lonMaskU, hns]

theorem lonMaskU_eq_cross (bb : GeoBBox) (x : ℚ) (h : bb.lonMax < bb.lonMin) :
    lonMaskU bb x = (decide (bb.lonMin ≤ x) || decide (x ≤ bb.lonMax)) := by
  simp [lonMaskU, h]

/-! ### C1: run-time matching -/

/-- C1 (amended): the by_date route's base-time matching is exactly the
    three-step behaviour: exact match; else the alternate half-day
    label on the same calendar date (hour 12 for an hour-0 request,
    hour 0 otherwise); else a run-not-found outcome whose hints are at
    most 3 run labels from the requested calendar date, and none when
    that date has no runs. -/
theorem c1_run_matching (baseVals : List Nat) (req : Nat) :
    (req ∈ baseVals → matchBaseByDate baseVals req = .found req) ∧
    (req ∉ baseVals → replaceHour req (altHour req) ∈ baseVals →
      matchBaseByDate baseVals req = .found (replaceHour req (altHour req)) ∧
      dateOf (replaceHour req (altHour req)) = dateOf req ∧
      (hourOf req = 0 → hourOf (replaceHour req (altHour req)) = 12) ∧
      (hourOf req ≠ 0 → hourOf (replaceHour req (altHour req)) = 0)) ∧
    (req ∉ baseVals → replaceHour req (altHour req) ∉ baseVals →
      matchBaseByDate baseVals req =
        .notFound (replaceHour req (altHour req))
          ((baseVals.filter fun b => decide (dateOf b = dateOf req)).take 3) ∧
      ((baseVals.filter fun b => decide (dateOf b = dateOf req)).take 3).length ≤ 3 ∧
      (∀ x ∈ (baseVals.filter fun b => decide (dateOf b = dateOf req)).take 3,
        x ∈ baseVals ∧ dateOf x = dateOf req) ∧
      ((∀ b ∈ baseVals, dateOf b ≠ dateOf req) →
        (baseVals.filter fun b => decide (dateOf b = dateOf req)).take 3 = [])) := by
  refine ⟨fun h => by simp [matchBaseByDate, h], fun h halt => ?_, fun h halt => ?_⟩
  · refine ⟨by simp [matchBaseByDate, h, halt], ?_, fun h0 => ?_, fun h0 => ?_⟩
    · exact dateOf_replaceHour req (altHour req) (by unfold altHour; split <;> omega)
    · rw [show altHour req = 12 by simp [altHour, h0]]
      exact hourOf_replaceHour req 12 (by omega)
    · rw [show altHour req = 0 by simp [altHour, h0]]
      exact hourOf_replaceHour req 0 (by omega)
  · refine ⟨by simp [matchBaseByDate, h, halt], ?_, fun x hx => ?_, fun hnone => ?_⟩
    · rw [List.length_take]
      exact min_le_left _ _
    · have hx' := List.take_subset 3 _ hx
      have := List.mem_filter.mp hx'
      exact ⟨this.1, by simpa using this.2⟩
    · have : (baseVals.filter fun b => decide (dateOf b = dateOf req)) = [] := by
        rw [List.filter_eq_nil_iff]
        intro b hb
        simpa using hnone b hb
      simp [this]

/-- C1 witness: a store with only an hour-5 run on the requested date;
    the request at 00:00 misses, the 12:00 alternate misses, and the
    outcome is run-not-found with the single same-date label as hint. -/
theorem c1_run_matching_witness :
    ((86400 : Nat) ∉ [104400] ∧ replaceHour 86400 (altHour 86400) ∉ [104400]) ∧
    matchBaseByDate [104400] 86400 =
      .notFound (replaceHour 86400 (altHour 86400))
        (([104400].filter fun b => decide (dateOf b = dateOf 86400)).take 3) :=
  ⟨⟨by decide, by decide⟩, ((c1_run_matching [104400] 86400).2.2 (by decide) (by decide)).1⟩

/-- C1 counterexample: the claim quantifies over every run-time
    matcher, but _match_base_time rejects a 12:00 request outright even
    though the store holds that exact label, where the three-step
    behaviour (implemented by the by_date route) resolves it in step
    one. -/
theorem c1_counterexample :
    (43200 : Nat) ∈ [43200] ∧
    matchBaseByDate [43200] 43200 = .found 43200 ∧
    matchBaseTimeHelper [43200] 43200 = .errNot00Z := by
  decide

/-! ### C2: degenerate bounding boxes -/

/-- C2 (amended): _extract_spatial_subset applies no padding and no
    nearest-point snap; the masks use the raw reprojected bounds with
    inclusive comparisons.  Hence a bbox that brackets a grid point on
    both axes — in particular a sub-cell bbox centered exactly on a
    grid point — selects exactly that point, even though (per the
    counterexample) a well-formed bbox lying strictly between grid
    points selects nothing. -/
theorem c2_subcell_bbox (lats lons : List ℚ) (bb : GeoBBox) (la lo : ℚ)
    (hndLat : lats.Nodup) (hndLon : lons.Nodup)
    (hla : la ∈ lats) (hlo : lo ∈ lons)
    (hlat1 : bb.latMin ≤ la) (hlat2 : la ≤ bb.latMax)
    (hlon1 : bb.lonMin ≤ lo) (hlon2 : lo ≤ bb.lonMax)
    (hLatO : ∀ x ∈ lats, x ≠ la → x < bb.latMin ∨ bb.latMax < x)
    (hLonO : ∀ x ∈ lons, x ≠ lo → x < bb.lonMin ∨ bb.lonMax < x) :
    subsetPointsU lats lons bb = [(la, lo)] := by
  have hlatns : ¬ bb.latMax < bb.latMin := not_lt.mpr (hlat1.trans hlat2)
  have hlonns : ¬ bb.lonMax < bb.lonMin := not_lt.mpr (hlon1.trans hlon2)
  have hlats : subsetLatsU lats bb = [la] := by
    refine filter_singleton_of_unique _ _ _ hndLat hla ?_ ?_
    · rw [latMaskU_eq bb la hlatns]
      simp [hlat1, hlat2]
    · intro x hx hxa
      rw [latMaskU_eq bb x hlatns]
      rcases hLatO x hx hxa with hlt | hgt
      · simp [not_le.mpr hlt]
      · simp [not_le.mpr hgt]
  have hlons : subsetLonsU lons bb = [lo] := by
    refine filter_singleton_of_unique _ _ _ hndLon hlo ?_ ?_
    · rw [lonMaskU_eq_nocross bb lo hlonns]
      simp [hlon1, hlon2]
    · intro x hx hxa
      rw [lonMaskU_eq_nocross bb x hlonns]
      rcases hLonO x hx hxa with hlt | hgt
      · simp [not_le.mpr hlt]
      · simp [not_le.mpr hgt]
  simp [subsetPointsU, hlats, hlons]

/-- C2 witness: on the grid with axes [0, 4] and the sub-cell bbox
    [-1, -1, 1, 1] (well inside one 4-degree cell) centered exactly on
    the grid point (0, 0), the subset is exactly that single point. -/
theorem c2_subcell_bbox_witness :
    subsetPointsU [0, 4] [0, 4] ⟨-1, -1, 1, 1⟩ = [((0 : ℚ), (0 : ℚ))] :=
  c2_subcell_bbox [0, 4] [0, 4] ⟨-1, -1, 1, 1⟩ 0 0 (by decide) (by decide)
    (by decide) (by decide) (by decide) (by decide) (by decide) (by decide)
    (by decide) (by decide)

/-- C2 counterexample: the grid lats [0, 4], lons [0] is non-empty and
    the bbox [-1, 1, 1, 3] is well-formed (ordered on both axes, one
    degree short of a cell in latitude), yet the subset is empty: no
    half-grid-step padding and no nearest-point snap exist in
    _extract_spatial_subset, so the claimed never-empty guarantee
    fails. -/
theorem c2_counterexample :
    ([(0 : ℚ), 4] ≠ []) ∧ ([(0 : ℚ)] ≠ []) ∧
    (⟨-1, 1, 1, 3⟩ : GeoBBox).lonMin ≤ (⟨-1, 1, 1, 3⟩ : GeoBBox).lonMax ∧
    (⟨-1, 1, 1, 3⟩ : GeoBBox).latMin ≤ (⟨-1, 1, 1, 3⟩ : GeoBBox).latMax ∧
    subsetPointsU [0, 4] [0] ⟨-1, 1, 1, 3⟩ = [] := by
  decide

/-! ### C3: antimeridian crossing -/

/-- C3 (amended): in app/utils/bounds_utils._extract_spatial_subset a
    bbox whose reprojected minimum longitude exceeds its maximum
    selects by the OR of the two comparisons, not the AND: a longitude
    survives the mask exactly when it is at least lon_min or at most
    lon_max.  The services-variant subsetter (the other cited source)
    does not behave this way (see the counterexample). -/
theorem c3_antimeridian_or (lons : List ℚ) (bb : GeoBBox) (hcross : bb.lonMax < bb.lonMin) :
    subsetLonsU lons bb =
      lons.filter (fun l => decide (bb.lonMin ≤ l) || decide (l ≤ bb.lonMax)) ∧
    ∀ l ∈ lons, (l ∈ subsetLonsU lons bb ↔ (bb.lonMin ≤ l ∨ l ≤ bb.lonMax)) := by
  constructor
  · unfold subsetLonsU
    congr 1
    funext l
    exact lonMaskU_eq_cross bb l hcross
  · intro l hl
    simp [subsetLonsU, List.mem_filter, lonMaskU_eq_cross bb l hcross, hl]

/-- C3 witness: the wrapped box with lon_min = 170 and lon_max = -170
    keeps longitudes 170 or more and -170 or less; on the axis
    [-175, 0, 175] it keeps -175 and 175 and excludes 0. -/
theorem c3_antimeridian_or_witness :
    subsetLonsU [-175, 0, 175] ⟨170, -10, -170, 10⟩ =
      [(-175 : ℚ), 0, 175].filter
        (fun l => decide ((170 : ℚ) ≤ l) || decide (l ≤ (-170 : ℚ))) ∧
    ((0 : ℚ) ∈ subsetLonsU [-175, 0, 175] ⟨170, -10, -170, 10⟩ ↔
      ((170 : ℚ) ≤ 0 ∨ (0 : ℚ) ≤ -170)) :=
  ⟨(c3_antimeridian_or [-175, 0, 175] ⟨170, -10, -170, 10⟩ (by decide)).1,
   (c3_antimeridian_or [-175, 0, 175] ⟨170, -10, -170, 10⟩ (by decide)).2 0 (by decide)⟩

/-- C3 counterexample: the claim quantifies over both cited
    subsetters, but app/services/bounds_utils.extract_spatial_subset
    first reorders the bounds (normalize_bbox) and then always ANDs:
    for the wrapped box with lon_min = 170 and lon_max = -170 it keeps
    exactly longitude 0 — the point the claim says must be excluded —
    and drops -175 and 175, while the utils variant keeps [-175, 175]. -/
theorem c3_counterexample :
    ((⟨170, -10, -170, 10⟩ : GeoBBox).lonMax < (⟨170, -10, -170, 10⟩ : GeoBBox).lonMin) ∧
    subsetLonsSvc [-175, 0, 175] ⟨170, -10, -170, 10⟩ = [0] ∧
    (0 : ℚ) ∈ subsetLonsSvc [-175, 0, 175] ⟨170, -10, -170, 10⟩ ∧
    subsetLonsU [-175, 0, 175] ⟨170, -10, -170, 10⟩ = [-175, 175] := by
  decide

/-! ### C4: time canonicalization -/

/-- C4 (amended): _parse_naive canonicalizes to naive UTC wall-clock at
    second precision: parsed values denoting the same instant map to
    the identical timestamp, already-canonical values are unchanged,
    and _parse_iso_naive agrees with it exactly on inputs whose zone
    designator is absent or UTC (offset zero). -/
theorem c4_canonicalization (p q : ParsedDT) (c : Int)
    (hp : p.usec < 1000000) (hq : q.usec < 1000000) :
    (p.instantUSec = q.instantUSec → parseNaive p = parseNaive q) ∧
    parseNaive ⟨c, 0, none⟩ = ⟨c⟩ ∧
    (p.offset = none ∨ p.offset = some 0 → parseIsoNaive p = parseNaive p) := by
  obtain ⟨ps, pu, po⟩ := p
  obtain ⟨qs, qu, qo⟩ := q
  refine ⟨fun h => ?_, by simp [parseNaive], fun h => ?_⟩
  · simp only [ParsedDT.instantUSec] at h
    simp only [parseNaive, NaiveTS.mk.injEq]
    simp only at hp hq
    cases po <;> cases qo <;> simp_all <;> omega
  · rcases h with h | h <;> simp_all [parseNaive, parseIsoNaive]

/-- C4 witness: with and without a trailing Z (offset zero) and a
    non-zero offset denoting the same instant all canonicalize to the
    same naive timestamp under _parse_naive. -/
theorem c4_canonicalization_witness :
    parseNaive ⟨45296, 0, some 7200⟩ = parseNaive ⟨38096, 0, some 0⟩ ∧
    parseNaive ⟨5, 0, none⟩ = ⟨5⟩ ∧
    parseIsoNaive ⟨38096, 0, some 0⟩ = parseNaive ⟨38096, 0, some 0⟩ :=
  ⟨(c4_canonicalization ⟨45296, 0, some 7200⟩ ⟨38096, 0, some 0⟩ 0 (by decide) (by decide)).1
      (by decide),
   (c4_canonicalization ⟨45296, 0, some 7200⟩ ⟨38096, 0, some 0⟩ 5 (by decide) (by decide)).2.1,
   (c4_canonicalization ⟨38096, 0, some 0⟩ ⟨38096, 0, some 0⟩ 0 (by decide) (by decide)).2.2
      (Or.inr rfl)⟩

/-- C4 counterexample: 12:34:56 at offset +02:00 and 10:34:56Z denote
    the same instant, yet _parse_iso_naive (one of the two cited
    canonicalizers, used to parse start_base and end_base in the api
    heatmap route) drops the offset without converting and maps them to
    different internal timestamps. -/
theorem c4_counterexample :
    ParsedDT.instantUSec ⟨45296, 0, some 7200⟩ = ParsedDT.instantUSec ⟨38096, 0, some 0⟩ ∧
    parseIsoNaive ⟨45296, 0, some 7200⟩ ≠ parseIsoNaive ⟨38096, 0, some 0⟩ := by
  decide

/-! ### C5: strict valid-time matching -/

/-- C5: _match_forecast_time is exact at second precision: a requested
    value present in the run's forecast_time row is returned unchanged;
    any absent value (one second off a stored one included) yields the
    not-found error carrying a sample of at most 5 of the available
    values, in stored order. -/
theorem c5_match_valid (fcstVals : List Nat) (req : Nat) :
    (req ∈ fcstVals → matchForecastTime fcstVals req = .ok req) ∧
    (req ∉ fcstVals →
      matchForecastTime fcstVals req = .error (fcstVals.take 5) ∧
      (fcstVals.take 5).length ≤ 5 ∧ List.Sublist (fcstVals.take 5) fcstVals) := by
  refine ⟨fun h => by simp [matchForecastTime, h], fun h => ?_⟩
  exact ⟨by simp [matchForecastTime, h], by simp [List.length_take], List.take_sublist 5 fcstVals⟩

/-- C5 witness: requesting a stored valid_time returns it unchanged;
    requesting one second off a stored one fails with the sample. -/
theorem c5_match_valid_witness :
    ((3600 : Nat) ∈ [3600, 7200] ∧ matchForecastTime [3600, 7200] 3600 = .ok 3600) ∧
    ((3601 : Nat) ∉ [3600, 7200] ∧
      matchForecastTime [3600, 7200] 3601 = .error ([3600, 7200].take 5)) :=
  ⟨⟨by decide, (c5_match_valid [3600, 7200] 3600).1 (by decide)⟩,
   ⟨by decide, ((c5_match_valid [3600, 7200] 3601).2 (by decide)).1⟩⟩

/-! ### C6: forecast-step listing -/

theorem dedupFirstFrom_congr (s1 s2 l : List Nat) (h : ∀ x, x ∈ s1 ↔ x ∈ s2) :
    dedupFirstFrom s1 l = dedupFirstFrom s2 l := by
  induction l generalizing s1 s2 with
  | nil => rfl
  | cons v rest ih =>
    by_cases hv : v ∈ s1
    · simp only [dedupFirstFrom, if_pos hv, if_pos ((h v).mp hv)]
      exact ih s1 s2 h
    · have hv2 : v ∉ s2 := fun c => hv ((h v).mpr c)
      simp only [dedupFirstFrom, if_neg hv, if_neg hv2]
      rw [ih (v :: s1) (v :: s2) (by intro x; simp [h x])]

theorem dedupFirstFrom_sublist (seen l : List Nat) :
    List.Sublist (dedupFirstFrom seen l) l := by
  induction l generalizing seen with
  | nil => simp [dedupFirstFrom]
  | cons v rest ih =>
    by_cases hv : v ∈ seen
    · simp only [dedupFirstFrom, if_pos hv]
      exact List.Sublist.cons v (ih seen)
    · simp only [dedupFirstFrom, if_neg hv]
      exact List.Sublist.cons₂ v (ih (v :: seen))

theorem dedupFirstFrom_nodup (seen l : List Nat) :
    (dedupFirstFrom seen l).Nodup ∧ ∀ x ∈ dedupFirstFrom seen l, x ∉ seen := by
  induction l generalizing seen with
  | nil => simp [dedupFirstFrom]
  | cons v rest ih =>
    by_cases hv : v ∈ seen
    · simpa only [dedupFirstFrom, if_pos hv] using ih seen
    · simp only [dedupFirstFrom, if_neg hv]
      obtain ⟨hnd, hnm⟩ := ih (v :: seen)
      refine ⟨List.nodup_cons.mpr ⟨fun hc => hnm v hc (List.mem_cons_self v seen), hnd⟩, ?_⟩
      intro x hx
      rcases List.mem_cons.mp hx with hxv | hxt
      · rw [hxv]; exact hv
      · exact fun hxs => hnm x hxt (List.mem_cons_of_mem v hxs)

theorem mem_dedupFirstFrom (seen l : List Nat) (x : Nat) (hx : x ∈ l) (hxs : x ∉ seen) :
    x ∈ dedupFirstFrom seen l := by
  induction l generalizing seen with
  | nil => cases hx
  | cons v rest ih =>
    by_cases hv : v ∈ seen
    · simp only [dedupFirstFrom, if_pos hv]
      rcases List.mem_cons.mp hx with hxv | hxt
      · exact absurd (by rw [hxv]; exact hv) hxs
      · exact ih seen hxt hxs
    · simp only [dedupFirstFrom, if_neg hv]
      rcases List.mem_cons.mp hx with hxv | hxt
      · rw [hxv]; exact List.mem_cons_self v _
      · by_cases hxv2 : x = v
        · rw [hxv2]; exact List.mem_cons_self v _
        · exact List.mem_cons_of_mem v (ih (v :: seen) hxt (by simp [hxv2, hxs]))

theorem pofDailyGo_eq (l : List Nat) : ∀ daily : List Nat, daily.length < 10 →
    pofDailyGo daily l = (daily ++ dedupFirstFrom daily (l.map floorDay)).take 10 := by
  induction l with
  | nil =>
    intro daily h
    simp [pofDailyGo, dedupFirstFrom, List.take_of_length_le (le_of_lt h)]
  | cons v rest ih =>
    intro daily h
    simp only [pofDailyGo, List.map_cons, dedupFirstFrom]
    by_cases hd : floorDay v ∈ daily
    · simp only [if_pos hd]
      rw [if_neg (by omega)]
      exact ih daily h
    · simp only [if_neg hd]
      by_cases hlen : 10 ≤ (daily ++ [floorDay v]).length
      · rw [if_pos hlen]
        have hql : (daily ++ [floorDay v]).length = 10 := by
          simp only [List.length_append, List.length_singleton]
          simp only [List.length_append, List.length_singleton] at hlen
          omega
        have hsplit :
            daily ++ floorDay v :: dedupFirstFrom (floorDay v :: daily) (rest.map floorDay)
              = (daily ++ [floorDay v]) ++
                  dedupFirstFrom (floorDay v :: daily) (rest.map floorDay) := by
          simp
        rw [hsplit, ← hql, List.take_left]
      · rw [if_neg hlen]
        rw [ih (daily ++ [floorDay v]) (Nat.lt_of_not_le hlen)]
        rw [dedupFirstFrom_congr (daily ++ [floorDay v]) (floorDay v :: daily)
          (rest.map floorDay) (by intro x; simp [or_comm])]
        simp

/-- C6: the POF (daily-collapsed) branch of by_date returns the
    first-occurrence-per-calendar-day collapse of the matched run's
    forecast_time row, in original forecast_index order, capped at 10
    days, never re-sorted; the non-POF (sub-daily) branch returns the
    native row in original index order with duplicates removed and no
    re-sorting. -/
theorem c6_forecast_steps (ftVals : List Nat) :
    pofDaily ftVals = (dedupFirst (ftVals.map floorDay)).take 10 ∧
    (pofDaily ftVals).length ≤ 10 ∧
    (pofDaily ftVals).Nodup ∧
    List.Sublist (pofDaily ftVals) (dedupFirst (ftVals.map floorDay)) ∧
    List.Sublist (dedupFirst (ftVals.map floorDay)) (ftVals.map floorDay) ∧
    (∀ d, d ∈ dedupFirst (ftVals.map floorDay) ↔ d ∈ ftVals.map floorDay) ∧
    fopiSteps ftVals = dedupFirst ftVals ∧
    (fopiSteps ftVals).Nodup ∧
    List.Sublist (fopiSteps ftVals) ftVals ∧
    (∀ x, x ∈ fopiSteps ftVals ↔ x ∈ ftVals) := by
  have hpof : pofDaily ftVals = (dedupFirst (ftVals.map floorDay)).take 10 := by
    unfold pofDaily dedupFirst
    rw [pofDailyGo_eq ftVals [] (by simp)]
    simp
  have hddn := dedupFirstFrom_nodup [] (ftVals.map floorDay)
  have hddn2 := dedupFirstFrom_nodup [] ftVals
  refine ⟨hpof, ?_, ?_, ?_, dedupFirstFrom_sublist [] _, fun d => ?_, rfl, hddn2.1, ?_, fun x => ?_⟩
  · rw [hpof, List.length_take]
    exact min_le_left _ _
  · rw [hpof]
    exact (List.take_sublist _ _).nodup hddn.1
  · rw [hpof]
    exact List.take_sublist _ _
  · exact ⟨fun hd => (dedupFirstFrom_sublist [] _).subset hd,
      fun hd => mem_dedupFirstFrom [] _ d hd (List.not_mem_nil d)⟩
  · exact dedupFirstFrom_sublist [] ftVals
  · exact ⟨fun hx => (dedupFirstFrom_sublist [] _).subset hx,
      fun hx => mem_dedupFirstFrom [] _ x hx (List.not_mem_nil x)⟩

/-! ### C9: idempotent ingestion -/

/-- C9: convert_nc_to_zarr is idempotent under force=False: when the
    run's store target already exists the call returns the path with no
    write and no raw-file read and the store set (hence the run count)
    unchanged; in particular re-ingesting right after any ingestion of
    the same run is a complete no-op. -/
theorem c9_idempotent (st : StoreState) (index timestamp : String) (force : Bool) :
    (zarrStorePath index timestamp ∈ st.stores →
      convertNcToZarr st (zarrStorePath index timestamp) false =
        (st, zarrStorePath index timestamp)) ∧
    convertNcToZarr (convertNcToZarr st (zarrStorePath index timestamp) force).1
        (zarrStorePath index timestamp) false
      = ((convertNcToZarr st (zarrStorePath index timestamp) force).1,
         zarrStorePath index timestamp) := by
  constructor
  · intro h
    simp [convertNcToZarr, h]
  · by_cases h : zarrStorePath index timestamp ∈ st.stores <;>
      by_cases hf : force <;>
        simp [convertNcToZarr, h, hf]

/-! ### C7: mean/median aggregation -/

/-- C7: _agg_mean_median returns a pair of optional finite rationals
    (NaN is converted to None at the boundary, and the scalar branch
    passes the single value through both statistics); a statistic is
    None exactly when no valid value is in scope, and an
    entirely-missing slice yields exactly (None, None). -/
theorem c7_mean_median (cells : List PyFloat) (v : PyFloat) :
    aggMeanMedian (.scalar v) = (toOptFloat v, toOptFloat v) ∧
    ((aggMeanMedian (.spatial cells)).1 = none ↔ validVals cells = []) ∧
    ((aggMeanMedian (.spatial cells)).2 = none ↔ validVals cells = []) ∧
    ((∀ c ∈ cells, c = PyFloat.nan) → aggMeanMedian (.spatial cells) = (none, none)) := by
  refine ⟨rfl, ?_, ?_, fun hall => ?_⟩
  · by_cases h : validVals cells = []
    · simp [aggMeanMedian, nanmean, h, toOptFloat]
    · have hne : (validVals cells).length ≠ 0 := by
        simpa [List.length_eq_zero] using h
      simp [aggMeanMedian, nanmean, hne, toOptFloat, h]
  · have hshow : (aggMeanMedian (.spatial cells)).2 = toOptFloat (nanmedian cells) := rfl
    rw [hshow]
    by_cases h : validVals cells = []
    · simp [nanmedian, h, toOptFloat]
    · have hne : ((validVals cells).mergeSort fun a b => decide (a ≤ b)).length ≠ 0 := by
        rw [List.length_mergeSort]
        simpa [List.length_eq_zero] using h
      simp only [nanmedian]
      rw [if_neg hne]
      refine ⟨fun hcon => ?_, fun hcon => absurd hcon h⟩
      exfalso
      revert hcon
      split <;> simp [toOptFloat]
  · have hnil : validVals cells = [] := by
      rw [validVals, List.filterMap_eq_nil_iff]
      intro c hc
      rw [hall c hc]
    simp [aggMeanMedian, nanmean, nanmedian, hnil, toOptFloat]

/-- C7 witness: the entirely-missing 2-cell slice yields exactly
    (None, None). -/
theorem c7_mean_median_witness :
    aggMeanMedian (.spatial [PyFloat.nan, PyFloat.nan]) = (none, none) :=
  (c7_mean_median [PyFloat.nan, PyFloat.nan] PyFloat.nan).2.2.2 (by decide)

/-! ### C8: exceedance fractions -/

/-- C8: exceedance fractions never divide by zero: the denominator is
    the count of valid (non-NaN) cells only; when it is zero (pooled
    overall, or within one calendar-date group) the code produces the
    float-nan sentinel instead of dividing, and when it is positive the
    fraction is exactly (valid cells at least t) / (valid cells), a
    count never exceeding the denominator. -/
theorem c8_exceedance (runs : List Run) (t : ℚ) (d : Nat) :
    (overallTotal runs = 0 → overallFraction runs t = .nan) ∧
    (0 < overallTotal runs →
      overallFraction runs t = .fin ((overallCount runs t : ℚ) / (overallTotal runs : ℚ)) ∧
      overallCount runs t ≤ overallTotal runs) ∧
    (dateTotal runs d = 0 → dateFraction runs d t = .nan) ∧
    (0 < dateTotal runs d →
      dateFraction runs d t = .fin ((dateCount runs d t : ℚ) / (dateTotal runs d : ℚ)) ∧
      dateCount runs d t ≤ dateTotal runs d) := by
  have hcnt : ∀ rs : List Run, overallCount rs t ≤ overallTotal rs := by
    intro rs
    refine List.sum_le_sum ?_
    intro r hr
    exact List.length_filter_le _ _
  refine ⟨fun h => ?_, fun h => ⟨?_, hcnt runs⟩, fun h => ?_, fun h => ⟨?_, hcnt _⟩⟩
  · simp [overallFraction, h]
  · simp [overallFraction, h]
  · simp [dateFraction, dateTotal, dateCount] at h ⊢
    simp [overallFraction, h]
  · simp only [dateFraction, dateTotal, dateCount] at h ⊢
    simp [overallFraction, h]

/-- C8 witness: one run with a single valid cell gives a positive
    denominator and the exact quotient; a date with no runs has a zero
    valid count and gets the nan sentinel, not a division error. -/
theorem c8_exceedance_witness :
    (0 < overallTotal [⟨0, [PyFloat.fin 0, PyFloat.nan]⟩] ∧
      overallFraction [⟨0, [PyFloat.fin 0, PyFloat.nan]⟩] 0 =
        .fin ((overallCount [⟨0, [PyFloat.fin 0, PyFloat.nan]⟩] 0 : ℚ) /
          (overallTotal [⟨0, [PyFloat.fin 0, PyFloat.nan]⟩] : ℚ))) ∧
    (dateTotal [⟨0, [PyFloat.fin 0, PyFloat.nan]⟩] 5 = 0 ∧
      dateFraction [⟨0, [PyFloat.fin 0, PyFloat.nan]⟩] 5 0 = .nan) :=
  ⟨⟨by decide, ((c8_exceedance [⟨0, [PyFloat.fin 0, PyFloat.nan]⟩] 0 5).2.1 (by decide)).1⟩,
   ⟨by decide, (c8_exceedance [⟨0, [PyFloat.fin 0, PyFloat.nan]⟩] 0 5).2.2.1 (by decide)⟩⟩

/-! ### C10: tooltip point query -/

theorem argmin_getD_le {α β : Type} [LinearOrder β] (f : α → β) (l : List α) (d : α)
    (hl : l ≠ []) (a : α) (ha : a ∈ l) : f ((l.argmin f).getD d) ≤ f a := by
  cases hh : l.argmin f with
  | none => exact absurd (List.argmin_eq_none.mp hh) hl
  | some m =>
      simp only [Option.getD_some]
      exact List.le_of_mem_argmin ha (Option.mem_def.mpr hh)

theorem nearestIdx_spec (axis : List ℚ) (x : ℚ) :
    ∀ j < axis.length, |axis.getD (nearestIdx axis x) 0 - x| ≤ |axis.getD j 0 - x| := by
  intro j hj
  unfold nearestIdx
  have hne : List.range axis.length ≠ [] := by
    simp only [ne_eq, List.range_eq_nil]
    omega
  exact argmin_getD_le (fun i => |axis.getD i 0 - x|) (List.range axis.length) 0 hne j
    (List.mem_range.mpr hj)

/-- C10: the tooltip query is exact in time and nearest in space: when
    the normalized requested forecast_time is absent from the matched
    run's row the outcome is the error carrying the available range
    (min, max, count) — no nearest-time snapping; when it is present,
    the picked forecast index holds exactly the requested value, the
    picked grid point minimizes the distance to the queried coordinate
    on each axis, and a NaN cell value is returned as null (none),
    never as NaN. -/
theorem c10_tooltip (ds : TooltipDS) (reqBase reqFcst : Nat) (lat lon : ℚ)
    (hb : reqBase ∈ ds.baseTimes) :
    (reqFcst ∉ ds.fcstRows (ds.baseTimes.indexOf reqBase) →
      getTooltip ds reqBase reqFcst lat lon =
        .errFcst reqFcst (listMin (ds.fcstRows (ds.baseTimes.indexOf reqBase)))
          (listMax (ds.fcstRows (ds.baseTimes.indexOf reqBase)))
          (ds.fcstRows (ds.baseTimes.indexOf reqBase)).length) ∧
    (reqFcst ∈ ds.fcstRows (ds.baseTimes.indexOf reqBase) →
      getTooltip ds reqBase reqFcst lat lon =
        .ok (toOptFloat (ds.cell (ds.baseTimes.indexOf reqBase)
              ((ds.fcstRows (ds.baseTimes.indexOf reqBase)).indexOf reqFcst)
              (nearestIdx ds.lats lat) (nearestIdx ds.lons lon)))
          (ds.lats.getD (nearestIdx ds.lats lat) 0)
          (ds.lons.getD (nearestIdx ds.lons lon) 0) ∧
      (ds.fcstRows (ds.baseTimes.indexOf reqBase)).getD
          ((ds.fcstRows (ds.baseTimes.indexOf reqBase)).indexOf reqFcst) 0 = reqFcst ∧
      (∀ j < ds.lats.length,
        |ds.lats.getD (nearestIdx ds.lats lat) 0 - lat| ≤ |ds.lats.getD j 0 - lat|) ∧
      (∀ j < ds.lons.length,
        |ds.lons.getD (nearestIdx ds.lons lon) 0 - lon| ≤ |ds.lons.getD j 0 - lon|) ∧
      (ds.cell (ds.baseTimes.indexOf reqBase)
          ((ds.fcstRows (ds.baseTimes.indexOf reqBase)).indexOf reqFcst)
          (nearestIdx ds.lats lat) (nearestIdx ds.lons lon) = PyFloat.nan →
        toOptFloat (ds.cell (ds.baseTimes.indexOf reqBase)
          ((ds.fcstRows (ds.baseTimes.indexOf reqBase)).indexOf reqFcst)
          (nearestIdx ds.lats lat) (nearestIdx ds.lons lon)) = none)) := by
  constructor
  · intro hf
    simp [getTooltip, hb, hf]
  · intro hf
    refine ⟨by simp [getTooltip, hb, hf], ?_, nearestIdx_spec ds.lats lat,
      nearestIdx_spec ds.lons lon, fun hnan => by rw [hnan]; rfl⟩
    rw [List.getD_eq_getElem _ _ (List.indexOf_lt_length.mpr hf)]
    exact List.getElem_indexOf (List.indexOf_lt_length.mpr hf)

/-- C10 witness: on a store whose matched run holds valid_times 3600
    and 7200, requesting the absent 9999 (and likewise anything one
    second off) produces the range-carrying error, with no snapping to
    the nearest stored time. -/
theorem c10_tooltip_witness :
    ((0 : Nat) ∈ [0]) ∧ ((9999 : Nat) ∉ [3600, 7200]) ∧
    getTooltip ⟨[0], fun _ => [3600, 7200], [0], [0], fun _ _ _ _ => PyFloat.nan⟩ 0 9999 0 0
      = .errFcst 9999 (listMin [3600, 7200]) (listMax [3600, 7200]) [3600, 7200].length :=
  ⟨by decide, by decide,
   (c10_tooltip ⟨[0], fun _ => [3600, 7200], [0], [0], fun _ _ _ _ => PyFloat.nan⟩ 0 9999 0 0
      (by decide)).1 (by decide)⟩

/-- C9 witness: with the fopi run store already present, a force=False
    call returns the same state: same store list, write counter and
    raw-read counter. -/
theorem c9_idempotent_witness :
    zarrStorePath "fopi" "2025071100" ∈ [zarrStorePath "fopi" "2025071100"] ∧
    convertNcToZarr ⟨[zarrStorePath "fopi" "2025071100"], 1, 1⟩
        (zarrStorePath "fopi" "2025071100") false
      = (⟨[zarrStorePath "fopi" "2025071100"], 1, 1⟩, zarrStorePath "fopi" "2025071100") :=
  ⟨List.mem_singleton.mpr rfl,
   (c9_idempotent ⟨[zarrStorePath "fopi" "2025071100"], 1, 1⟩ "fopi" "2025071100" false).1
     (List.mem_singleton.mpr rfl)⟩

end Pyro
